import Mathlib

/-!
Shallow embedding of the PrintBuddy backend (`backend/index.js`): the tag
lifecycle (`normalizeTags`, `serializeTags`, the tag read-back of
`rowToItem`, `suggestTags`, `parseTagsFromText`, `generateAiTags`), the
upload gate (multer `fileFilter` over Node `path.extname` semantics), and
the record-store endpoints (`PATCH /api/files/:id/tags`, `POST /api/files`,
`POST /api/files/:id/autotag`, `DELETE /api/files/:id`) over a list-of-rows
model of the SQLite `files` table.  External collaborators (the `fetch`
call and `JSON.parse`) enter as explicit parameters.
-/

/-- JavaScript `String.prototype.trim`, modelled character-wise: drop
whitespace from both ends. -/
def jsTrim (s : String) : String :=
  String.mk (((s.data.dropWhile Char.isWhitespace).reverse.dropWhile Char.isWhitespace).reverse)

/-- JavaScript `String.prototype.toLowerCase`, modelled character-wise on
the ASCII letters that flow through the backend. -/
def jsToLower (s : String) : String :=
  String.mk (s.data.map Char.toLower)

/-- Core of JavaScript `str.split(',')` on a character list: split at every
comma, keeping empty pieces exactly as JavaScript does (`""` gives `[""]`,
`"a,"` gives `["a",""]`). -/
def splitCore : List Char → List (List Char)
  | [] => [[]]
  | c :: rest =>
    if c = ',' then [] :: splitCore rest
    else
      match splitCore rest with
      | [] => [[c]]
      | t :: ts => (c :: t) :: ts

/-- JavaScript `s.split(',')`. -/
def splitOnComma (s : String) : List String :=
  (splitCore s.data).map String.mk

/-- Core of JavaScript `arr.join(',')` on character lists. -/
def joinCore : List (List Char) → List Char
  | [] => []
  | [x] => x
  | x :: y :: ys => x ++ ',' :: joinCore (y :: ys)

/-- JavaScript `arr.join(',')`. -/
def joinComma (l : List String) : String :=
  String.mk (joinCore (l.map (fun s => s.data)))

/-- Worker for `jsDedup`, carrying the set of strings already emitted. -/
def jsDedupAux : List String → List String → List String
  | _, [] => []
  | seen, x :: xs =>
    if x ∈ seen then jsDedupAux seen xs else x :: jsDedupAux (x :: seen) xs

/-- JavaScript `Array.from(new Set(xs))`: deduplicate keeping first
occurrences, in insertion order (the iteration order of a `Set`). -/
def jsDedup (l : List String) : List String :=
  jsDedupAux [] l

/-- The JavaScript value supplied as tag input (`req.body.tags`): `null`
covers every falsy input (null, undefined, 0, false), `str` a string,
`arr` an array whose elements are given by their `String(tag)` coercions
(the identity on strings), and `other` any other truthy value. -/
inductive TagInput where
  | null
  | str (s : String)
  | arr (tags : List String)
  | other

/-- Function `normalizeTags` of `backend/index.js` (lines 84-98).  The
falsy guard `if (!tags) return []` catches the empty string as well; the
array branch maps `String(tag).trim().toLowerCase()` and filters out empty
results, the string branch splits on commas first.  No deduplication
happens here. -/
def normalizeTags : TagInput → List String
  | .null => []
  | .str s =>
    if s = "" then []
    else ((splitOnComma s).map (fun t => jsToLower (jsTrim t))).filter (fun t => t != "")
  | .arr tags => (tags.map (fun t => jsToLower (jsTrim t))).filter (fun t => t != "")
  | .other => []

/-- Function `serializeTags` (lines 100-103): deduplicate through a `Set`
and join with commas. -/
def serializeTags (tagsArray : List String) : String :=
  joinComma (jsDedup tagsArray)

/-- Tag read-back performed by `rowToItem` (line 107):
`row.tags ? row.tags.split(',').filter(Boolean) : []`. -/
def splitTags (s : String) : List String :=
  if s = "" then [] else (splitOnComma s).filter (fun t => t != "")

/-- Worker for `splitNonAlnum`: a state machine reproducing JavaScript
`name.split(/[^a-zA-Z0-9]+/)`.  The boolean records whether the scan sits
inside a separator run; a separator run splits once, and a leading or
trailing run contributes an empty piece, as the regex split does. -/
def splitRuns : List Char → String → Bool → List String
  | [], acc, inSep => if inSep then [""] else [acc]
  | c :: rest, acc, inSep =>
    if c.isAlphanum then
      splitRuns rest (if inSep then String.mk [c] else acc.push c) false
    else
      if inSep then splitRuns rest "" true
      else acc :: splitRuns rest "" true

/-- JavaScript `name.split(/[^a-zA-Z0-9]+/)`. -/
def splitNonAlnum (s : String) : List String :=
  splitRuns s.data "" false

/-- The stopword list `['v1', 'v2', 'v3', 'final']` of line 116. -/
def stopWords : List String := ["v1", "v2", "v3", "final"]

/-- The strip step
`filename.replace(new RegExp(`\x7b`\\.${extension}$`\x7d`, 'i'), '')` of
line 112: for the alphanumeric extensions stored in records this removes a
trailing `.<extension>`, matched case-insensitively. -/
def stripExtSuffix (filename extension : String) : String :=
  let suffix := (jsToLower ("." ++ extension)).data
  if suffix.isSuffixOf (jsToLower filename).data then
    String.mk (filename.data.take (filename.data.length - suffix.length))
  else filename

/-- Function `suggestTags` (lines 111-120).  The `Set` built from the
filtered tokens iterates in first-insertion order;
`tags.add(extension.toLowerCase())` appends only when the value is new,
and `if (extension)` skips a falsy (empty) extension; finally
`.slice(0, 8)` truncates. -/
def suggestTags (filename extension : String) : List String :=
  let name := stripExtSuffix filename extension
  let tokens := ((splitNonAlnum name).map (fun t => jsToLower (jsTrim t))).filter
    (fun t => decide (1 < t.length) && !(decide (t ∈ stopWords)))
  let tags := jsDedup tokens
  let tags' :=
    if extension = "" then tags
    else if jsToLower extension ∈ tags then tags
    else tags ++ [jsToLower extension]
  tags'.take 8

/-- Index of the last occurrence of a character in a list. -/
def lastIdxOf (c : Char) (cs : List Char) : Option Nat :=
  (cs.reverse.findIdx? (fun d => d == c)).map (fun k => cs.length - 1 - k)

/-- The JavaScript regex match `payload.match(/\[[\s\S]*\]/)` of line 125:
the leftmost greedy match runs from the first `[` to the last `]`, and a
match exists iff some `]` occurs after the first `[`. -/
def bracketMatch (s : String) : Option String :=
  match s.data.findIdx? (fun d => d == '['), lastIdxOf ']' s.data with
  | some i, some j =>
    if i < j then some (String.mk ((s.data.drop i).take (j - i + 1))) else none
  | _, _ => none

/-- The payload handed to `JSON.parse`: the bracketed match when one
exists, otherwise the whole (already trimmed) text. -/
def bracketPayload (s : String) : String :=
  (bracketMatch s).getD s

/-- Outcome of the external `JSON.parse` collaborator on the payload: a
successfully parsed array (elements given by their `String(x)` coercions,
the identity on strings), some other successfully parsed value, or — as
`none` — a parse error (the `catch` branch). -/
inductive JsonResult where
  | arr (tags : List String)
  | nonArray

/-- Function `parseTagsFromText` (lines 122-138), with `JSON.parse`
supplied as the abstract collaborator `jp`.  The argument is optional
because the caller feeds it `data?.choices?.[0]?.message?.content?.trim()`,
and `if (!text) return []` catches both `undefined` and the empty
string. -/
def parseTagsFromText (jp : String → Option JsonResult) : Option String → List String
  | none => []
  | some t =>
    if t = "" then []
    else
      match jp (bracketPayload (jsTrim t)) with
      | some (.arr tags) => normalizeTags (.arr tags)
      | some .nonArray => []
      | none => []

/-- The configuration read from the environment: `OPENAI_API_KEY` (empty
when unset, line 14). -/
structure AiConfig where
  apiKey : String

/-- The external chat-completions response: `ok` and `status`, the error
body read by `response.text()`, and the optional
`data?.choices?.[0]?.message?.content`. -/
structure AiResponse where
  ok : Bool
  status : Nat
  bodyText : String
  content : Option String

/-- Outcome of `await fetch(...)`: either the promise rejects (network
failure, collaborator unreachable — the thrown message propagates) or a
response is produced. -/
inductive FetchOutcome where
  | thrown (msg : String)
  | response (resp : AiResponse)

/-- One row of the `files` table (lines 30-41). -/
structure Row where
  id : String
  original_name : String
  storage_name : String
  extension : String
  size : Nat
  mime_type : String
  created_at : String
  tags : String
  deriving DecidableEq, Repr

/-- Function `generateAiTags` (lines 140-177), with the `fetch` outcome
and the `JSON.parse` collaborator supplied as parameters.  The missing-key
check throws before any network call; a non-ok response throws with the
upstream status and body; otherwise the parsed suggestion is truncated to
8 entries, falling back to `suggestTags` when it is empty. -/
def generateAiTags (cfg : AiConfig) (jp : String → Option JsonResult)
    (outcome : FetchOutcome) (file : Row) : Except String (List String) :=
  if cfg.apiKey = "" then .error "OPENAI_API_KEY is not configured."
  else
    match outcome with
    | .thrown msg => .error msg
    | .response resp =>
      if !resp.ok then
        .error ("OpenAI error: " ++ toString resp.status ++ " " ++ resp.bodyText)
      else
        let text := resp.content.map jsTrim
        let parsed := parseTagsFromText jp text
        if parsed = [] then .ok (suggestTags file.original_name file.extension)
        else .ok (parsed.take 8)

/-- The `files` table, as the list of its rows in insertion order. -/
abbrev Store := List Row

/-- Statement `findStmt` (line 54): `SELECT * FROM files WHERE id = ?`. -/
def findStmt (store : Store) (id : String) : Option Row :=
  store.find? (fun r => r.id == id)

/-- Statement `updateTagsStmt` (line 56):
`UPDATE files SET tags = @tags WHERE id = @id`. -/
def updateTagsStmt (store : Store) (id : String) (tags : String) : Store :=
  store.map (fun r => if r.id = id then { r with tags := tags } else r)

/-- Statement `deleteStmt` (line 55): `DELETE FROM files WHERE id = ?`. -/
def deleteStmt (store : Store) (id : String) : Store :=
  store.filter (fun r => r.id != id)

/-- Statement `listStmt` (line 53):
`SELECT * FROM files ORDER BY datetime(created_at) DESC`; ISO-8601
timestamps compare chronologically as strings. -/
def listStmt (store : Store) : Store :=
  store.mergeSort (fun a b => decide (b.created_at ≤ a.created_at))

/-- Endpoint `PATCH /api/files/:id/tags` (lines 226-236): the HTTP status
and the resulting store. -/
def patchTags (store : Store) (id : String) (tags : TagInput) : Nat × Store :=
  match findStmt store id with
  | none => (404, store)
  | some _ => (200, updateTagsStmt store id (serializeTags (normalizeTags tags)))

/-- Node `path.extname` for separator-free filenames: the substring from
the last dot, except that a lone dot in first position (hidden file) and
the name `".."` yield the empty string. -/
def extname (s : String) : String :=
  match lastIdxOf '.' s.data with
  | none => ""
  | some 0 => ""
  | some d => if s = ".." then "" else String.mk (s.data.drop d)

/-- The multer `fileFilter` (lines 70-77): accept exactly when the
lowercased extension is `.stl` or `.3mf`. -/
def fileFilterAccept (originalname : String) : Bool :=
  let ext := jsToLower (extname originalname)
  ext == ".stl" || ext == ".3mf"

/-- JavaScript `s.replace('.', '')` on a character list: remove the first
occurrence of the dot. -/
def removeFirstDot : List Char → List Char
  | [] => []
  | c :: cs => if c = '.' then cs else c :: removeFirstDot cs

/-- The uploaded file's multer metadata. -/
structure UploadFile where
  originalname : String
  filename : String
  size : Nat
  mimetype : String

/-- Endpoint `POST /api/files` (lines 188-207) together with the multer
gate: a rejected extension short-circuits to the express error handler
(lines 267-269, status 400) before the route handler runs and before any
row is inserted; a missing file yields 400 from the handler itself;
otherwise a fresh row with empty tags is appended (201). -/
def uploadPost (store : Store) (file : Option UploadFile) (id now : String) : Nat × Store :=
  match file with
  | none => (400, store)
  | some f =>
    if fileFilterAccept f.originalname then
      let extension := String.mk (removeFirstDot (jsToLower (extname f.originalname)).data)
      (201, store ++ [{ id := id, original_name := f.originalname,
                        storage_name := f.filename, extension := extension,
                        size := f.size, mime_type := f.mimetype,
                        created_at := now, tags := "" }])
    else (400, store)

/-- Endpoint `POST /api/files/:id/autotag` (lines 238-252): any rejection
of `generateAiTags` lands in the `catch` branch (500) with the store
untouched; on success the serialized suggestions replace the row's
tags. -/
def autotagPost (store : Store) (id : String) (cfg : AiConfig)
    (jp : String → Option JsonResult) (outcome : FetchOutcome) : Nat × Store :=
  match findStmt store id with
  | none => (404, store)
  | some item =>
    match generateAiTags cfg jp outcome item with
    | .error _ => (500, store)
    | .ok suggested => (200, updateTagsStmt store id (serializeTags suggested))

/-- Endpoint `DELETE /api/files/:id` (lines 254-265); the filesystem
unlink does not affect the store. -/
def deletePost (store : Store) (id : String) : Nat × Store :=
  match findStmt store id with
  | none => (404, store)
  | some _ => (200, deleteStmt store id)

/-! ### Character-level lemmas -/

theorem toNat_ofNat_valid (n : Nat) (h : n.isValidChar) : (Char.ofNat n).toNat = n := by
  unfold Char.ofNat
  rw [dif_pos h]
  rfl

theorem char_toLower_toLower (c : Char) : c.toLower.toLower = c.toLower := by
  unfold Char.toLower
  by_cases h : c.toNat ≥ 65 ∧ c.toNat ≤ 90
  · rw [if_pos h]
    have hv : (c.toNat + 32).isValidChar := Or.inl (by omega)
    have ht : (Char.ofNat (c.toNat + 32)).toNat = c.toNat + 32 := toNat_ofNat_valid _ hv
    rw [if_neg (by omega :
      ¬((Char.ofNat (c.toNat + 32)).toNat ≥ 65 ∧ (Char.ofNat (c.toNat + 32)).toNat ≤ 90))]
  · rw [if_neg h, if_neg h]

theorem char_toLower_ne_comma (c : Char) (h : c ≠ ',') : c.toLower ≠ ',' := by
  unfold Char.toLower
  by_cases hr : c.toNat ≥ 65 ∧ c.toNat ≤ 90
  · rw [if_pos hr]
    intro he
    have hv : (c.toNat + 32).isValidChar := Or.inl (by omega)
    have ht : (Char.ofNat (c.toNat + 32)).toNat = c.toNat + 32 := toNat_ofNat_valid _ hv
    have : (',' : Char).toNat = 44 := by decide
    rw [he, this] at ht
    omega
  · rw [if_neg hr]
    exact h

theorem jsToLower_idem (s : String) : jsToLower (jsToLower s) = jsToLower s := by
  unfold jsToLower
  simp [List.map_map, Function.comp_def, char_toLower_toLower]

/-! ### Deduplication lemmas -/

theorem mem_jsDedupAux {t : String} : ∀ (seen l : List String),
    t ∈ jsDedupAux seen l → t ∈ l := by
  intro seen l
  induction l generalizing seen with
  | nil => simp [jsDedupAux]
  | cons x xs ih =>
    intro h
    unfold jsDedupAux at h
    by_cases hx : x ∈ seen
    · rw [if_pos hx] at h
      exact List.mem_cons_of_mem _ (ih _ h)
    · rw [if_neg hx] at h
      rcases List.mem_cons.mp h with h | h
      · exact h ▸ List.mem_cons_self _ _
      · exact List.mem_cons_of_mem _ (ih _ h)

theorem jsDedupAux_not_mem_seen {t : String} : ∀ (seen l : List String),
    t ∈ jsDedupAux seen l → t ∉ seen := by
  intro seen l
  induction l generalizing seen with
  | nil => simp [jsDedupAux]
  | cons x xs ih =>
    intro h
    unfold jsDedupAux at h
    by_cases hx : x ∈ seen
    · rw [if_pos hx] at h
      exact ih _ h
    · rw [if_neg hx] at h
      rcases List.mem_cons.mp h with h | h
      · exact h ▸ hx
      · intro hseen
        exact ih _ h (List.mem_cons_of_mem _ hseen)

theorem jsDedupAux_nodup : ∀ (seen l : List String), (jsDedupAux seen l).Nodup := by
  intro seen l
  induction l generalizing seen with
  | nil => simp [jsDedupAux]
  | cons x xs ih =>
    unfold jsDedupAux
    by_cases hx : x ∈ seen
    · rw [if_pos hx]
      exact ih _
    · rw [if_neg hx]
      refine List.nodup_cons.mpr ⟨fun hmem => ?_, ih _⟩
      exact jsDedupAux_not_mem_seen _ _ hmem (List.mem_cons_self _ _)

theorem jsDedupAux_eq_self : ∀ (seen l : List String), l.Nodup →
    (∀ t ∈ l, t ∉ seen) → jsDedupAux seen l = l := by
  intro seen l
  induction l generalizing seen with
  | nil => intro _ _; rfl
  | cons x xs ih =>
    intro hnd hs
    unfold jsDedupAux
    rw [if_neg (hs x (List.mem_cons_self _ _))]
    congr 1
    refine ih _ (List.nodup_cons.mp hnd).2 ?_
    intro t ht
    rcases List.nodup_cons.mp hnd with ⟨hx, _⟩
    intro hmem
    rcases List.mem_cons.mp hmem with h | h
    · exact hx (h ▸ ht)
    · exact hs t (List.mem_cons_of_mem _ ht) h

theorem mem_jsDedup {t : String} {l : List String} (h : t ∈ jsDedup l) : t ∈ l :=
  mem_jsDedupAux _ _ h

theorem jsDedup_nodup (l : List String) : (jsDedup l).Nodup :=
  jsDedupAux_nodup _ _

theorem jsDedup_eq_self {l : List String} (h : l.Nodup) : jsDedup l = l :=
  jsDedupAux_eq_self _ _ h (by simp)

theorem jsDedup_idem (l : List String) : jsDedup (jsDedup l) = jsDedup l :=
  jsDedup_eq_self (jsDedup_nodup l)

theorem jsDedup_nil_iff {l : List String} : jsDedup l = [] ↔ l = [] := by
  cases l with
  | nil => simp [jsDedup, jsDedupAux]
  | cons x xs =>
    simp only [jsDedup, jsDedupAux, List.not_mem_nil, if_neg (List.not_mem_nil x)]
    constructor
    · intro h; cases h
    · intro h; cases h

/-! ### Split and join lemmas -/

theorem splitCore_ne_nil (cs : List Char) : splitCore cs ≠ [] := by
  cases cs with
  | nil => simp [splitCore]
  | cons c rest =>
    unfold splitCore
    by_cases hc : c = ','
    · rw [if_pos hc]; simp
    · rw [if_neg hc]
      cases splitCore rest with
      | nil => simp
      | cons t ts => simp

theorem splitCore_of_no_comma (cs : List Char) (h : ',' ∉ cs) : splitCore cs = [cs] := by
  induction cs with
  | nil => rfl
  | cons c rest ih =>
    unfold splitCore
    have hc : c ≠ ',' := fun he => h (he ▸ List.mem_cons_self _ _)
    rw [if_neg hc, ih (fun hm => h (List.mem_cons_of_mem _ hm))]

theorem splitCore_cons_of_ne (c : Char) (rest t : List Char) (ts : List (List Char))
    (hc : c ≠ ',') (h : splitCore rest = t :: ts) :
    splitCore (c :: rest) = (c :: t) :: ts := by
  unfold splitCore
  rw [if_neg hc, h]

theorem splitCore_append (cs rest : List Char) (h : ',' ∉ cs) :
    splitCore (cs ++ ',' :: rest) = cs :: splitCore rest := by
  induction cs with
  | nil => simp [splitCore]
  | cons c cs' ih =>
    have hc : c ≠ ',' := fun he => h (he ▸ List.mem_cons_self _ _)
    have ih' := ih (fun hm => h (List.mem_cons_of_mem _ hm))
    rw [List.cons_append]
    exact splitCore_cons_of_ne c _ cs' (splitCore rest) hc ih'

theorem splitCore_joinCore (x : List Char) (xs : List (List Char))
    (h : ∀ y ∈ x :: xs, ',' ∉ y) :
    splitCore (joinCore (x :: xs)) = x :: xs := by
  induction xs generalizing x with
  | nil => exact splitCore_of_no_comma x (h x (List.mem_cons_self _ _))
  | cons y ys ih =>
    show splitCore (x ++ ',' :: joinCore (y :: ys)) = x :: y :: ys
    rw [splitCore_append _ _ (h x (List.mem_cons_self _ _))]
    rw [ih y (fun z hz => h z (List.mem_cons_of_mem _ hz))]

theorem string_mk_data (s : String) : String.mk s.data = s := by
  cases s
  rfl

theorem map_mk_map_data (l : List String) :
    (l.map (fun s => s.data)).map String.mk = l := by
  rw [List.map_map]
  conv_rhs => rw [show l = l.map id from (List.map_id l).symm]
  exact List.map_congr_left (fun s _ => string_mk_data s)

theorem string_data_ne_nil {s : String} (h : s ≠ "") : s.data ≠ [] := by
  intro hd
  apply h
  rw [← string_mk_data s, hd]

theorem joinComma_ne_empty (x : String) (xs : List String) (hx : x ≠ "") :
    joinComma (x :: xs) ≠ "" := by
  intro h
  have hdata := congrArg String.data h
  cases xs with
  | nil => exact string_data_ne_nil hx hdata
  | cons y ys =>
    have h2 : x.data ++ ',' :: joinCore ((y :: ys).map (fun s => s.data)) = [] := hdata
    rcases List.append_eq_nil.mp h2 with ⟨-, h3⟩
    cases h3

theorem splitOnComma_joinComma (x : String) (xs : List String)
    (h : ∀ t ∈ x :: xs, ',' ∉ t.data) :
    splitOnComma (joinComma (x :: xs)) = x :: xs := by
  have hcf : ∀ y ∈ x.data :: xs.map (fun s => s.data), ',' ∉ y := by
    intro y hy
    rcases List.mem_cons.mp hy with rfl | hy'
    · exact h x (List.mem_cons_self _ _)
    · rcases List.mem_map.mp hy' with ⟨t, ht, rfl⟩
      exact h t (List.mem_cons_of_mem _ ht)
  show (splitCore (joinComma (x :: xs)).data).map String.mk = x :: xs
  have hd : (joinComma (x :: xs)).data = joinCore (x.data :: xs.map (fun s => s.data)) := by
    simp [joinComma]
  rw [hd, splitCore_joinCore x.data (xs.map (fun s => s.data)) hcf]
  rw [← List.map_cons (fun s => s.data) x xs]
  exact map_mk_map_data (x :: xs)

/-- The normalize–serialize round-trip at the list level: a deduplicated
serialization survives the stored-string read-back whenever the entries
are non-empty and contain no comma. -/
theorem serialize_splitTags_serialize (l : List String)
    (hc : ∀ t ∈ l, ',' ∉ t.data) (hn : ∀ t ∈ l, t ≠ "") :
    serializeTags (splitTags (serializeTags l)) = serializeTags l := by
  cases hd : jsDedup l with
  | nil =>
    have hl : l = [] := jsDedup_nil_iff.mp hd
    subst hl
    rfl
  | cons x xs =>
    have hxl : x ∈ l := mem_jsDedup (hd ▸ List.mem_cons_self x xs)
    have hxne : x ≠ "" := hn x hxl
    have hser : serializeTags l = joinComma (x :: xs) := by
      unfold serializeTags; rw [hd]
    have hne : serializeTags l ≠ "" := hser ▸ joinComma_ne_empty x xs hxne
    have hsplit : splitOnComma (serializeTags l) = x :: xs := by
      rw [hser]
      refine splitOnComma_joinComma x xs ?_
      intro t ht
      exact hc t (mem_jsDedup (hd ▸ ht))
    have hfilter : (x :: xs).filter (fun t => t != "") = x :: xs := by
      rw [List.filter_eq_self]
      intro a ha
      have : a ≠ "" := hn a (mem_jsDedup (hd ▸ ha))
      simpa using this
    have hst : splitTags (serializeTags l) = x :: xs := by
      unfold splitTags
      rw [if_neg hne, hsplit, hfilter]
    rw [hst]
    unfold serializeTags
    rw [jsDedup_eq_self (hd ▸ jsDedup_nodup l), hd]

/-! ### Entry-shape lemmas for the Tag Normalizer -/

theorem entries_of_map_filter (l : List String) (t : String)
    (h : t ∈ (l.map (fun u => jsToLower (jsTrim u))).filter (fun t => t != "")) :
    t ≠ "" ∧ jsToLower t = t := by
  rcases List.mem_filter.mp h with ⟨hm, hne⟩
  rcases List.mem_map.mp hm with ⟨u, -, rfl⟩
  exact ⟨by simpa using hne, jsToLower_idem _⟩

theorem normalizeTags_entries (x : TagInput) :
    ∀ t ∈ normalizeTags x, t ≠ "" ∧ jsToLower t = t := by
  intro t ht
  cases x with
  | null => cases ht
  | other => cases ht
  | str s =>
    simp only [normalizeTags] at ht
    by_cases hs : s = ""
    · rw [if_pos hs] at ht
      cases ht
    · rw [if_neg hs] at ht
      exact entries_of_map_filter _ _ ht
  | arr tags => exact entries_of_map_filter _ _ ht

theorem splitCore_pieces (cs : List Char) : ∀ p ∈ splitCore cs, ',' ∉ p := by
  induction cs with
  | nil =>
    intro p hp
    unfold splitCore at hp
    rcases List.mem_singleton.mp hp with rfl
    simp
  | cons c rest ih =>
    intro p hp
    unfold splitCore at hp
    by_cases hc : c = ','
    · rw [if_pos hc] at hp
      rcases List.mem_cons.mp hp with rfl | hp'
      · simp
      · exact ih p hp'
    · rw [if_neg hc] at hp
      cases hts : splitCore rest with
      | nil => exact absurd hts (splitCore_ne_nil rest)
      | cons u ts =>
        rw [hts] at hp
        rcases List.mem_cons.mp hp with rfl | hp'
        · intro hmem
          rcases List.mem_cons.mp hmem with he | hmem'
          · exact hc he.symm
          · exact ih u (hts ▸ List.mem_cons_self _ _) hmem'
        · exact ih p (hts ▸ List.mem_cons_of_mem _ hp')

theorem jsTrim_data_subset (s : String) : (jsTrim s).data ⊆ s.data := by
  intro c hc
  have h1 : c ∈ ((s.data.dropWhile Char.isWhitespace).reverse.dropWhile Char.isWhitespace).reverse := hc
  have h2 := List.mem_reverse.mp h1
  have h3 := (List.dropWhile_sublist (p := Char.isWhitespace)
    (l := (s.data.dropWhile Char.isWhitespace).reverse)).subset h2
  have h4 := List.mem_reverse.mp h3
  exact (List.dropWhile_sublist (p := Char.isWhitespace) (l := s.data)).subset h4

theorem jsToLower_comma_free {s : String} (h : ',' ∉ s.data) : ',' ∉ (jsToLower s).data := by
  intro hmem
  rcases List.mem_map.mp hmem with ⟨c, hc, he⟩
  exact char_toLower_ne_comma c (fun hcc => h (hcc ▸ hc)) he

theorem normalize_str_comma_free (s : String) :
    ∀ t ∈ normalizeTags (.str s), ',' ∉ t.data := by
  intro t ht
  simp only [normalizeTags] at ht
  by_cases hs : s = ""
  · rw [if_pos hs] at ht
    cases ht
  · rw [if_neg hs] at ht
    rcases List.mem_filter.mp ht with ⟨hm, -⟩
    rcases List.mem_map.mp hm with ⟨u, hu, rfl⟩
    rcases List.mem_map.mp hu with ⟨p, hp, rfl⟩
    have hpcf : ',' ∉ p := splitCore_pieces s.data p hp
    have htr : ',' ∉ (jsTrim (String.mk p)).data :=
      fun hmem => hpcf (jsTrim_data_subset _ hmem)
    exact jsToLower_comma_free htr

/-! ### Record-store lemmas -/

theorem findStmt_update (store : Store) (id : String) (r : Row) (t : String)
    (h : findStmt store id = some r) :
    findStmt (updateTagsStmt store id t) id = some { r with tags := t } := by
  induction store with
  | nil => cases h
  | cons a as ih =>
    unfold findStmt at h ⊢
    unfold updateTagsStmt
    by_cases hid : a.id = id
    · rw [List.find?_cons_of_pos _ (by simp [hid])] at h
      injection h with h
      subst h
      simp only [List.map_cons, if_pos hid]
      rw [List.find?_cons_of_pos _ (by simp [hid])]
    · rw [List.find?_cons_of_neg _ (by simp [hid])] at h
      simp only [List.map_cons, if_neg hid]
      rw [List.find?_cons_of_neg _ (by simp [hid])]
      exact ih h

theorem deleteStmt_id_ne (store : Store) (id : String) (r : Row)
    (h : r ∈ deleteStmt store id) : r.id ≠ id := by
  rcases List.mem_filter.mp h with ⟨-, hp⟩
  simpa using hp

/-! ### Suggestion-engine helper lemmas -/

theorem suggestTags_length_le (f e : String) : (suggestTags f e).length ≤ 8 := by
  unfold suggestTags
  exact List.length_take_le _ _

theorem mem_suggestTags {f e t : String} (h : t ∈ suggestTags f e) :
    t ∈ ((splitNonAlnum (stripExtSuffix f e)).map (fun u => jsToLower (jsTrim u))).filter
        (fun u => decide (1 < u.length) && !(decide (u ∈ stopWords))) ∨
      t = jsToLower e := by
  simp only [suggestTags] at h
  replace h := List.take_subset _ _ h
  split at h
  · exact Or.inl (mem_jsDedup h)
  · split at h
    · exact Or.inl (mem_jsDedup h)
    · rcases List.mem_append.mp h with h1 | h1
      · exact Or.inl (mem_jsDedup h1)
      · exact Or.inr (List.mem_singleton.mp h1)

theorem suggest_token_props {f e t : String}
    (h : t ∈ ((splitNonAlnum (stripExtSuffix f e)).map (fun u => jsToLower (jsTrim u))).filter
        (fun u => decide (1 < u.length) && !(decide (u ∈ stopWords)))) :
    jsToLower t = t ∧ 1 < t.length ∧ t ∉ stopWords := by
  rcases List.mem_filter.mp h with ⟨hm, hp⟩
  rcases List.mem_map.mp hm with ⟨u, -, rfl⟩
  rw [Bool.and_eq_true] at hp
  obtain ⟨h1, h2⟩ := hp
  rw [Bool.not_eq_true'] at h2
  exact ⟨jsToLower_idem _, of_decide_eq_true h1, of_decide_eq_false h2⟩

/-! ### Claims -/

/-- C1 (counterexample): on the comma-string input `"a,a"` the Tag
Normalizer returns `["a", "a"]`, which contains a duplicate entry, so the
claim that `normalizeTags` never returns duplicates is false. -/
theorem C1_counterexample :
    normalizeTags (.str "a,a") = ["a", "a"] ∧ ¬ (normalizeTags (.str "a,a")).Nodup := by
  constructor
  · decide
  · decide

/-- C1 (amended): for every tag input given as a comma-separated string or
as a list of strings (indeed for every input), the Tag Normalizer returns
a sequence with no empty entries and all entries lowercase; duplicates are
preserved here in first-occurrence order and are only dropped later at
serialization. -/
theorem C1_normalize_no_empty_lowercase (x : TagInput) :
    ∀ t ∈ normalizeTags x, t ≠ "" ∧ jsToLower t = t :=
  normalizeTags_entries x

/-- C1 (witness): the amended theorem applied to the concrete input
`"A, b"` and its first returned entry. -/
theorem C1_witness :
    "a" ∈ normalizeTags (.str "A, b") ∧ ("a" ≠ "" ∧ jsToLower "a" = "a") :=
  ⟨by decide, C1_normalize_no_empty_lowercase (.str "A, b") "a" (by decide)⟩

/-- C2 (counterexample): for the list input `["a,"]` — a single element
that itself contains a comma — the round-trip changes the serialized
value: `serialize(normalize(["a,"]))` is `"a,"` but re-serializing its
read-back gives `"a"`. -/
theorem C2_counterexample :
    serializeTags (splitTags (serializeTags (normalizeTags (.arr ["a,"])))) ≠
      serializeTags (normalizeTags (.arr ["a,"])) := by
  decide

/-- C2 (amended): the invariant
`serialize(split(serialize(normalize(x)))) == serialize(normalize(x))`
holds for every input x whose normalized entries contain no comma
character, and in particular unconditionally for every comma-string
input; it can fail only for list inputs with commas embedded in an
element. -/
theorem C2_roundtrip_comma_free :
    (∀ x : TagInput,
      ((normalizeTags x).all (fun t => t.data.all (fun c => c != ','))) = true →
      serializeTags (splitTags (serializeTags (normalizeTags x))) =
        serializeTags (normalizeTags x)) ∧
    (∀ s : String,
      serializeTags (splitTags (serializeTags (normalizeTags (.str s)))) =
        serializeTags (normalizeTags (.str s))) := by
  constructor
  · intro x hall
    refine serialize_splitTags_serialize _ ?_ ?_
    · intro t ht
      have h1 := List.all_eq_true.mp hall t ht
      intro hcm
      have h2 := List.all_eq_true.mp h1 ',' hcm
      simp at h2
    · intro t ht
      exact (normalizeTags_entries x t ht).1
  · intro s
    refine serialize_splitTags_serialize _ (normalize_str_comma_free s) ?_
    intro t ht
    exact (normalizeTags_entries _ t ht).1

/-- C2 (witness): the amended theorem applied to the concrete comma-free
list input `["tag1", "tag2"]`. -/
theorem C2_witness :
    serializeTags (splitTags (serializeTags (normalizeTags (.arr ["tag1", "tag2"])))) =
      serializeTags (normalizeTags (.arr ["tag1", "tag2"])) :=
  C2_roundtrip_comma_free.1 (.arr ["tag1", "tag2"]) (by decide)

/-- C3: for any existing record id, updating its tags through
`PATCH /api/files/:id/tags` with input `["a", "b", "a"]` and then reading
the record back yields `tags == ["a", "b"]`: first-occurrence order is
preserved and the later duplicate is dropped. -/
theorem C3_patch_then_read (store : Store) (id : String) (r : Row)
    (h : findStmt store id = some r) :
    (patchTags store id (.arr ["a", "b", "a"])).1 = 200 ∧
    (findStmt (patchTags store id (.arr ["a", "b", "a"])).2 id).map
      (fun q => splitTags q.tags) = some ["a", "b"] := by
  have hp : patchTags store id (.arr ["a", "b", "a"]) =
      (200, updateTagsStmt store id (serializeTags (normalizeTags (.arr ["a", "b", "a"])))) := by
    unfold patchTags
    rw [h]
  rw [hp]
  refine ⟨rfl, ?_⟩
  rw [findStmt_update store id r _ h]
  show some (splitTags (serializeTags (normalizeTags (.arr ["a", "b", "a"])))) = some ["a", "b"]
  decide

/-- C3 (witness): the theorem applied to a one-row store holding the
record with id `"f1"`. -/
theorem C3_witness :
    (patchTags [{ id := "f1", original_name := "m.stl", storage_name := "u.stl",
                  extension := "stl", size := 3, mime_type := "model/stl",
                  created_at := "2024-01-01T00:00:00.000Z", tags := "old" }]
      "f1" (.arr ["a", "b", "a"])).1 = 200 ∧
    (findStmt (patchTags [{ id := "f1", original_name := "m.stl", storage_name := "u.stl",
                            extension := "stl", size := 3, mime_type := "model/stl",
                            created_at := "2024-01-01T00:00:00.000Z", tags := "old" }]
        "f1" (.arr ["a", "b", "a"])).2 "f1").map (fun q => splitTags q.tags) = some ["a", "b"] :=
  C3_patch_then_read _ "f1"
    { id := "f1", original_name := "m.stl", storage_name := "u.stl",
      extension := "stl", size := 3, mime_type := "model/stl",
      created_at := "2024-01-01T00:00:00.000Z", tags := "old" } (by decide)

/-- C4: the Upload Gate accepts a filename iff its lowercase extension
(including the dot) is `.stl` or `.3mf`; a rejected file makes the upload
fail with HTTP 400 and leaves the store without a new record, while an
accepted file is created with status 201. -/
theorem C4_upload_gate (name : String) (store : Store) (f g : UploadFile) (id now : String)
    (hrej : fileFilterAccept f.originalname = false)
    (hacc : fileFilterAccept g.originalname = true) :
    (fileFilterAccept name = true ↔
      (jsToLower (extname name) = ".stl" ∨ jsToLower (extname name) = ".3mf")) ∧
    uploadPost store (some f) id now = (400, store) ∧
    (uploadPost store (some g) id now).1 = 201 := by
  refine ⟨?_, ?_, ?_⟩
  · unfold fileFilterAccept
    simp only [Bool.or_eq_true, beq_iff_eq]
  · unfold uploadPost
    simp [hrej]
  · unfold uploadPost
    simp [hacc]

/-- C4 (witness): the theorem applied to the filename `"M.STL"`, a
rejected `.obj` upload and an accepted `.3MF` upload. -/
theorem C4_witness :
    (fileFilterAccept "M.STL" = true ↔
      (jsToLower (extname "M.STL") = ".stl" ∨ jsToLower (extname "M.STL") = ".3mf")) ∧
    uploadPost [] (some { originalname := "x.obj", filename := "s1.obj",
                          size := 1, mimetype := "application/octet-stream" }) "i1" "t1" =
      (400, []) ∧
    (uploadPost [] (some { originalname := "y.3MF", filename := "s2.3mf",
                           size := 2, mimetype := "application/octet-stream" }) "i1" "t1").1 =
      201 :=
  C4_upload_gate "M.STL" []
    { originalname := "x.obj", filename := "s1.obj",
      size := 1, mimetype := "application/octet-stream" }
    { originalname := "y.3MF", filename := "s2.3mf",
      size := 2, mimetype := "application/octet-stream" }
    "i1" "t1" (by decide) (by decide)

/-- C5: the local suggestion heuristic returns at most 8 tags, every
returned tag is lowercase, every returned tag is either the lowercase
extension (added as a tag) or a filename token of length greater than 1
that is not one of the stopwords `v1`, `v2`, `v3`, `final`; on
`"Bracket_Mount_v2_FINAL.stl"` with extension `"stl"` it returns exactly
`["bracket", "mount", "stl"]`, drawn from that three-element set. -/
theorem C5_suggest_tags (filename extension : String) :
    (suggestTags filename extension).length ≤ 8 ∧
    (∀ t ∈ suggestTags filename extension, jsToLower t = t) ∧
    (∀ t ∈ suggestTags filename extension,
      t = jsToLower extension ∨ (1 < t.length ∧ t ∉ stopWords)) ∧
    suggestTags "Bracket_Mount_v2_FINAL.stl" "stl" = ["bracket", "mount", "stl"] := by
  refine ⟨suggestTags_length_le _ _, ?_, ?_, by decide⟩
  · intro t ht
    rcases mem_suggestTags ht with h | h
    · exact (suggest_token_props h).1
    · rw [h]
      exact jsToLower_idem _
  · intro t ht
    rcases mem_suggestTags ht with h | h
    · exact Or.inr (suggest_token_props h).2
    · exact Or.inl h

/-- C5 (witness): the theorem applied to the concrete inputs
`"Part_Cover_v2.stl"` and `"stl"`. -/
theorem C5_witness :
    (suggestTags "Part_Cover_v2.stl" "stl").length ≤ 8 ∧
    suggestTags "Bracket_Mount_v2_FINAL.stl" "stl" = ["bracket", "mount", "stl"] :=
  ⟨(C5_suggest_tags "Part_Cover_v2.stl" "stl").1,
   (C5_suggest_tags "Part_Cover_v2.stl" "stl").2.2.2⟩

/-- C6: when the autotag suggestion fails — unreachable collaborator
(rejected fetch), missing configuration, or non-success response, i.e.
whenever `generateAiTags` produces an error — the request returns HTTP 500
and the store, hence the record's existing tags, is unchanged: the tag
update only happens after a suggestion is successfully obtained. -/
theorem C6_autotag_failure_preserves_tags (store : Store) (id : String) (cfg : AiConfig)
    (jp : String → Option JsonResult) (outcome : FetchOutcome) (item : Row) (e : String)
    (hfind : findStmt store id = some item)
    (herr : generateAiTags cfg jp outcome item = .error e) :
    autotagPost store id cfg jp outcome = (500, store) := by
  unfold autotagPost
  simp only [hfind, herr]

/-- C6 (witness): the theorem applied to a one-row store with a missing
API key, where `generateAiTags` fails with the configuration error. -/
theorem C6_witness :
    autotagPost [{ id := "f1", original_name := "m.stl", storage_name := "u.stl",
                   extension := "stl", size := 3, mime_type := "model/stl",
                   created_at := "2024-01-01T00:00:00.000Z", tags := "keep,me" }]
      "f1" { apiKey := "" } (fun _ => none)
      (.response { ok := true, status := 200, bodyText := "", content := none }) =
      (500, [{ id := "f1", original_name := "m.stl", storage_name := "u.stl",
               extension := "stl", size := 3, mime_type := "model/stl",
               created_at := "2024-01-01T00:00:00.000Z", tags := "keep,me" }]) :=
  C6_autotag_failure_preserves_tags _ "f1" _ _ _
    { id := "f1", original_name := "m.stl", storage_name := "u.stl",
      extension := "stl", size := 3, mime_type := "model/stl",
      created_at := "2024-01-01T00:00:00.000Z", tags := "keep,me" }
    "OPENAI_API_KEY is not configured." (by decide) rfl

/-- C7: with a configured key, a non-success external response makes
`generateAiTags` fail with an error carrying the collaborator's status and
response body; the result is an error, not a fallback to the local
heuristic. -/
theorem C7_non_ok_no_fallback (cfg : AiConfig) (jp : String → Option JsonResult)
    (resp : AiResponse) (file : Row)
    (hkey : cfg.apiKey ≠ "") (hok : resp.ok = false) :
    generateAiTags cfg jp (.response resp) file =
      .error ("OpenAI error: " ++ toString resp.status ++ " " ++ resp.bodyText) := by
  unfold generateAiTags
  rw [if_neg hkey]
  simp [hok]

/-- C7 (witness): the theorem applied to a concrete 503 response. -/
theorem C7_witness :
    generateAiTags { apiKey := "k" } (fun _ => none)
      (.response { ok := false, status := 503, bodyText := "overloaded", content := none })
      { id := "f1", original_name := "m.stl", storage_name := "u.stl",
        extension := "stl", size := 3, mime_type := "model/stl",
        created_at := "2024-01-01T00:00:00.000Z", tags := "" } =
      .error ("OpenAI error: " ++ toString 503 ++ " " ++ "overloaded") :=
  C7_non_ok_no_fallback { apiKey := "k" } (fun _ => none)
    { ok := false, status := 503, bodyText := "overloaded", content := none }
    { id := "f1", original_name := "m.stl", storage_name := "u.stl",
      extension := "stl", size := 3, mime_type := "model/stl",
      created_at := "2024-01-01T00:00:00.000Z", tags := "" }
    (by decide) rfl

/-- C8: on a successful external response, the suggestion is computed by
locating a bracketed substring of the trimmed text and handing it to the
JSON parser: a parse failure or a non-array value yields the empty
suggestion (no error), an array yields its normalization; when the parsed
suggestion is empty the overall result falls back to the local heuristic
on the record's name and extension, and otherwise at most the first 8
normalized entries are returned — in every case successfully. -/
theorem C8_parse_and_fallback (cfg : AiConfig) (jp : String → Option JsonResult)
    (resp : AiResponse) (file : Row) (s : String) (xs : List String)
    (hkey : cfg.apiKey ≠ "") (hok : resp.ok = true) :
    ((jp (bracketPayload (jsTrim s)) = none ∨ jp (bracketPayload (jsTrim s)) = some .nonArray) →
      s ≠ "" → parseTagsFromText jp (some s) = []) ∧
    (jp (bracketPayload (jsTrim s)) = some (.arr xs) → s ≠ "" →
      parseTagsFromText jp (some s) = normalizeTags (.arr xs)) ∧
    (parseTagsFromText jp (resp.content.map jsTrim) = [] →
      generateAiTags cfg jp (.response resp) file =
        .ok (suggestTags file.original_name file.extension)) ∧
    (parseTagsFromText jp (resp.content.map jsTrim) ≠ [] →
      generateAiTags cfg jp (.response resp) file =
        .ok ((parseTagsFromText jp (resp.content.map jsTrim)).take 8)) := by
  refine ⟨?_, ?_, ?_, ?_⟩
  · rintro (hjp | hjp) hs
    all_goals
      simp only [parseTagsFromText]
      rw [if_neg hs, hjp]
  · intro hjp hs
    simp only [parseTagsFromText]
    rw [if_neg hs, hjp]
  · intro hparse
    unfold generateAiTags
    rw [if_neg hkey]
    simp [hok, hparse]
  · intro hparse
    unfold generateAiTags
    rw [if_neg hkey]
    simp [hok, hparse]

/-- C8 (witness): the theorem applied to a configured key, a successful
response whose content wraps the array `[1]` in prose, and a parser that
reads `"[1]"` as the array whose single string coercion is `"TagX "`. -/
theorem C8_witness :
    ((((fun p => if p = "[1]" then some (JsonResult.arr ["TagX "]) else none) : String → Option JsonResult)
        (bracketPayload (jsTrim "see [1] ok")) = none ∨
      ((fun p => if p = "[1]" then some (JsonResult.arr ["TagX "]) else none) : String → Option JsonResult)
        (bracketPayload (jsTrim "see [1] ok")) = some .nonArray) →
      "see [1] ok" ≠ "" →
      parseTagsFromText (fun p => if p = "[1]" then some (JsonResult.arr ["TagX "]) else none)
        (some "see [1] ok") = []) ∧
    (((fun p => if p = "[1]" then some (JsonResult.arr ["TagX "]) else none) : String → Option JsonResult)
        (bracketPayload (jsTrim "see [1] ok")) = some (.arr ["TagX "]) →
      "see [1] ok" ≠ "" →
      parseTagsFromText (fun p => if p = "[1]" then some (JsonResult.arr ["TagX "]) else none)
        (some "see [1] ok") = normalizeTags (.arr ["TagX "])) ∧
    (parseTagsFromText (fun p => if p = "[1]" then some (JsonResult.arr ["TagX "]) else none)
        (({ ok := true, status := 200, bodyText := "", content := some "see [1] ok" } : AiResponse).content.map jsTrim) = [] →
      generateAiTags { apiKey := "k" }
        (fun p => if p = "[1]" then some (JsonResult.arr ["TagX "]) else none)
        (.response { ok := true, status := 200, bodyText := "", content := some "see [1] ok" })
        { id := "f1", original_name := "m.stl", storage_name := "u.stl",
          extension := "stl", size := 3, mime_type := "model/stl",
          created_at := "2024-01-01T00:00:00.000Z", tags := "" } =
        .ok (suggestTags "m.stl" "stl")) ∧
    (parseTagsFromText (fun p => if p = "[1]" then some (JsonResult.arr ["TagX "]) else none)
        (({ ok := true, status := 200, bodyText := "", content := some "see [1] ok" } : AiResponse).content.map jsTrim) ≠ [] →
      generateAiTags { apiKey := "k" }
        (fun p => if p = "[1]" then some (JsonResult.arr ["TagX "]) else none)
        (.response { ok := true, status := 200, bodyText := "", content := some "see [1] ok" })
        { id := "f1", original_name := "m.stl", storage_name := "u.stl",
          extension := "stl", size := 3, mime_type := "model/stl",
          created_at := "2024-01-01T00:00:00.000Z", tags := "" } =
        .ok ((parseTagsFromText (fun p => if p = "[1]" then some (JsonResult.arr ["TagX "]) else none)
          (({ ok := true, status := 200, bodyText := "", content := some "see [1] ok" } : AiResponse).content.map jsTrim)).take 8)) :=
  C8_parse_and_fallback { apiKey := "k" }
    (fun p => if p = "[1]" then some (JsonResult.arr ["TagX "]) else none)
    { ok := true, status := 200, bodyText := "", content := some "see [1] ok" }
    { id := "f1", original_name := "m.stl", storage_name := "u.stl",
      extension := "stl", size := 3, mime_type := "model/stl",
      created_at := "2024-01-01T00:00:00.000Z", tags := "" }
    "see [1] ok" ["TagX "] (by decide) rfl

/-- C9: deleting a nonexistent id returns 404 and leaves the store
unchanged; deleting an existing id succeeds with 200 and the id no longer
appears among the ids listed by `listStmt` afterwards. -/
theorem C9_delete_behaviour (store : Store) (idA idB : String) (r : Row)
    (hA : findStmt store idA = none) (hB : findStmt store idB = some r) :
    deletePost store idA = (404, store) ∧
    (deletePost store idB).1 = 200 ∧
    idB ∉ (listStmt (deletePost store idB).2).map (fun q => q.id) := by
  refine ⟨?_, ?_, ?_⟩
  · unfold deletePost
    rw [hA]
  · unfold deletePost
    simp only [hB]
  · have h2 : (deletePost store idB).2 = deleteStmt store idB := by
      unfold deletePost
      simp only [hB]
    rw [h2]
    intro hmem
    rcases List.mem_map.mp hmem with ⟨q, hq, hqid⟩
    unfold listStmt at hq
    have hq' : q ∈ deleteStmt store idB := List.mem_mergeSort.mp hq
    exact deleteStmt_id_ne store idB q hq' hqid

/-- C9 (witness): the theorem applied to a one-row store, the missing id
`"zz"` and the present id `"f1"`. -/
theorem C9_witness :
    deletePost [{ id := "f1", original_name := "m.stl", storage_name := "u.stl",
                  extension := "stl", size := 3, mime_type := "model/stl",
                  created_at := "2024-01-01T00:00:00.000Z", tags := "" }] "zz" =
      (404, [{ id := "f1", original_name := "m.stl", storage_name := "u.stl",
               extension := "stl", size := 3, mime_type := "model/stl",
               created_at := "2024-01-01T00:00:00.000Z", tags := "" }]) ∧
    (deletePost [{ id := "f1", original_name := "m.stl", storage_name := "u.stl",
                   extension := "stl", size := 3, mime_type := "model/stl",
                   created_at := "2024-01-01T00:00:00.000Z", tags := "" }] "f1").1 = 200 ∧
    "f1" ∉ (listStmt (deletePost [{ id := "f1", original_name := "m.stl",
                                    storage_name := "u.stl",
                                    extension := "stl", size := 3, mime_type := "model/stl",
                                    created_at := "2024-01-01T00:00:00.000Z", tags := "" }]
      "f1").2).map (fun q => q.id) :=
  C9_delete_behaviour _ "zz" "f1"
    { id := "f1", original_name := "m.stl", storage_name := "u.stl",
      extension := "stl", size := 3, mime_type := "model/stl",
      created_at := "2024-01-01T00:00:00.000Z", tags := "" } (by decide) (by decide)

/-- C10: on a successful autotag, the record's stored tag string is
replaced wholesale by the serialized suggestions: the refreshed row is the
old row with its `tags` field overwritten, so tags present before the call
are discarded rather than merged. -/
theorem C10_autotag_replaces (store : Store) (id : String) (cfg : AiConfig)
    (jp : String → Option JsonResult) (outcome : FetchOutcome) (item : Row)
    (suggested : List String)
    (hfind : findStmt store id = some item)
    (hok : generateAiTags cfg jp outcome item = .ok suggested) :
    (autotagPost store id cfg jp outcome).1 = 200 ∧
    findStmt (autotagPost store id cfg jp outcome).2 id =
      some { item with tags := serializeTags suggested } := by
  have ha : autotagPost store id cfg jp outcome =
      (200, updateTagsStmt store id (serializeTags suggested)) := by
    unfold autotagPost
    simp only [hfind, hok]
  rw [ha]
  exact ⟨rfl, findStmt_update store id item _ hfind⟩

/-- C10 (witness): the theorem applied to a one-row store whose record
carries the prior tags `"old,stuff"`, with a successful suggestion
`["tagx"]`; the resulting row holds exactly the serialized suggestion. -/
theorem C10_witness :
    (autotagPost [{ id := "f1", original_name := "m.stl", storage_name := "u.stl",
                    extension := "stl", size := 3, mime_type := "model/stl",
                    created_at := "2024-01-01T00:00:00.000Z", tags := "old,stuff" }]
      "f1" { apiKey := "k" }
      (fun p => if p = "[1]" then some (JsonResult.arr ["tagx"]) else none)
      (.response { ok := true, status := 200, bodyText := "", content := some "see [1] ok" })).1 =
      200 ∧
    findStmt (autotagPost [{ id := "f1", original_name := "m.stl", storage_name := "u.stl",
                             extension := "stl", size := 3, mime_type := "model/stl",
                             created_at := "2024-01-01T00:00:00.000Z", tags := "old,stuff" }]
      "f1" { apiKey := "k" }
      (fun p => if p = "[1]" then some (JsonResult.arr ["tagx"]) else none)
      (.response { ok := true, status := 200, bodyText := "", content := some "see [1] ok" })).2
      "f1" =
      some { id := "f1", original_name := "m.stl", storage_name := "u.stl",
             extension := "stl", size := 3, mime_type := "model/stl",
             created_at := "2024-01-01T00:00:00.000Z", tags := serializeTags ["tagx"] } :=
  C10_autotag_replaces _ "f1" { apiKey := "k" }
    (fun p => if p = "[1]" then some (JsonResult.arr ["tagx"]) else none)
    (.response { ok := true, status := 200, bodyText := "", content := some "see [1] ok" })
    { id := "f1", original_name := "m.stl", storage_name := "u.stl",
      extension := "stl", size := 3, mime_type := "model/stl",
      created_at := "2024-01-01T00:00:00.000Z", tags := "old,stuff" }
    ["tagx"] (by decide) (by rfl)
